import Mathlib

/-
Shallow embedding of the real-time dubbing client code:
`extension/audio-processor.js` (the AudioWorklet processor), the
`RTDContentScript` content script, and `static/js/voice_management.js`.
Audio samples are modelled as rationals (ℚ); JS `Float32Array`s become
`List ℚ`.  The backend Python components named in the README
(`services/speaker_identification.py`, `utils/audio_processing.py`) are
not present in the repository snapshot; where a claim depends on them
they are modelled from the specification text, and the corresponding
definitions say so in their doc comments.
-/

namespace RTD

/-! ## AudioWorklet processor (extension/audio-processor.js) -/

/-- State of the `AudioProcessor` worklet: `bufferSize`, `buffer`,
`bufferIndex`, `sampleRate`, `isProcessing`, `frameCount`, as set up in the
constructor.  The `analyser` field (never used by any method) is omitted. -/
structure WorkletState where
  bufferSize : Nat
  buffer : List ℚ
  bufferIndex : Nat
  sampleRate : ℚ
  isProcessing : Bool
  frameCount : Nat
deriving Repr, DecidableEq

/-- Constructor state: bufferSize 2048, zeroed buffer, index 0,
sampleRate 44100, isProcessing true, frameCount 0. -/
def initWorklet : WorkletState :=
  { bufferSize := 2048
    buffer := List.replicate 2048 0
    bufferIndex := 0
    sampleRate := 44100
    isProcessing := true
    frameCount := 0 }

/-- `calculateAudioLevel(buffer)`: mean of absolute sample values
(`sum += Math.abs(buffer[i])`, then `sum / buffer.length`). -/
def calculateAudioLevel (buffer : List ℚ) : ℚ :=
  (buffer.map (fun s => |s|)).sum / buffer.length

/-- `compress(sample, threshold, ratio)`: if `|sample| > threshold`,
return `threshold + (|sample| - threshold) * ratio` with the sign of
`sample` (`sample >= 0 ? compressedSample : -compressedSample`);
otherwise return the sample unchanged. -/
def compress (sample threshold ratio : ℚ) : ℚ :=
  let absSample := |sample|
  if absSample > threshold then
    let excess := absSample - threshold
    let compressedExcess := excess * ratio
    let compressedSample := threshold + compressedExcess
    if sample ≥ 0 then compressedSample else -compressedSample
  else
    sample

/-- The per-sample body of `preprocessAudio`: the noise gate
(`if (Math.abs(sample) < 0.001) sample = 0`) followed by
`compress(sample, 0.7, 0.5)`. -/
def preprocessSample (sample : ℚ) : ℚ :=
  let gated := if |sample| < 1/1000 then 0 else sample
  compress gated (7/10) (1/2)

/-- `preprocessAudio(inputBuffer)`: builds a fresh output buffer whose
entry `i` is `preprocessSample inputBuffer[i]`. -/
def preprocessAudio (inputBuffer : List ℚ) : List ℚ :=
  inputBuffer.map preprocessSample

/-- The message posted to the main thread by `processBuffer` (type
`audio_chunk`): the preprocessed buffer, the sample rate, the audio
level, and `currentTime * 1000` as timestamp. -/
structure WorkletChunkMsg where
  audioBuffer : List ℚ
  sampleRate : ℚ
  level : ℚ
  timestamp : ℚ
deriving Repr, DecidableEq

/-- `processBuffer()`: computes the level of the full buffer, applies
`preprocessAudio`, and posts the `audio_chunk` message. -/
def processBuffer (st : WorkletState) (currentTime : ℚ) : WorkletChunkMsg :=
  { audioBuffer := preprocessAudio st.buffer
    sampleRate := st.sampleRate
    level := calculateAudioLevel st.buffer
    timestamp := currentTime * 1000 }

/-- `updateBufferSize(newSize)`: clamps to
`Math.max(1024, Math.min(8192, newSize))`, reallocates the buffer
(`new Float32Array(this.bufferSize)`, zero-filled), and resets
`bufferIndex` to 0.  The requested size is an integer from the message. -/
def updateBufferSize (st : WorkletState) (newSize : Int) : WorkletState :=
  let ns := (max 1024 (min 8192 newSize)).toNat
  { st with bufferSize := ns, buffer := List.replicate ns 0, bufferIndex := 0 }

/-- Messages handled by `handleMessage`. -/
inductive WorkletMsg where
  | start
  | stop
  | setBufferSize (size : Int)
deriving Repr, DecidableEq

/-- `handleMessage(data)`: `start` sets `isProcessing := true`, `stop`
sets it false, `set_buffer_size` calls `updateBufferSize`. -/
def handleMessage (st : WorkletState) (m : WorkletMsg) : WorkletState :=
  match m with
  | .start => { st with isProcessing := true }
  | .stop => { st with isProcessing := false }
  | .setBufferSize n => updateBufferSize st n

/-- One iteration of the loop body in `process`, for the buffering part
(the pass-through copy is handled by the caller): when `isProcessing`,
store the sample at `bufferIndex`, increment it, and when it reaches
`bufferSize` emit the `processBuffer` message and reset the index. -/
def processSample (st : WorkletState) (currentTime x : ℚ) :
    WorkletState × Option WorkletChunkMsg :=
  if st.isProcessing then
    let buf := st.buffer.set st.bufferIndex x
    let idx := st.bufferIndex + 1
    if idx ≥ st.bufferSize then
      let full := { st with buffer := buf, bufferIndex := idx }
      ({ full with bufferIndex := 0 }, some (processBuffer full currentTime))
    else
      ({ st with buffer := buf, bufferIndex := idx }, none)
  else
    (st, none)

/-- The loop `for (let i = 0; i < inputChannel.length; i++)` in
`process`: each iteration first copies the input sample to the output
channel (`outputChannel[i] = inputChannel[i]`) and then runs the
buffering step.  Returns the final state, the output channel, and the
list of emitted `audio_chunk` messages in order. -/
def processSamples (currentTime : ℚ) :
    WorkletState → List ℚ → WorkletState × List ℚ × List WorkletChunkMsg
  | st, [] => (st, [], [])
  | st, x :: xs =>
    let p := processSample st currentTime x
    let q := processSamples currentTime p.1 xs
    (q.1, x :: q.2.1,
      match p.2 with
      | some c => c :: q.2.2
      | none => q.2.2)

/-- `process(inputs, outputs, parameters)`: returns early when the input
has no channels; otherwise refreshes `this.sampleRate` from the worklet
context's `sampleRate`, runs the sample loop, and increments
`frameCount`.  Result: (new state, output channel, emitted messages). -/
def process (st : WorkletState) (ctxSampleRate currentTime : ℚ)
    (input : List ℚ) : WorkletState × List ℚ × List WorkletChunkMsg :=
  if input.length = 0 then
    (st, input, [])
  else
    let st0 := { st with sampleRate := ctxSampleRate }
    let r := processSamples currentTime st0 input
    ({ r.1 with frameCount := r.1.frameCount + 1 }, r.2.1, r.2.2)

/-- An event delivered to the worklet: a port message or a processing
frame (with the audio context's sample rate and current time). -/
inductive WEvent where
  | msg (m : WorkletMsg)
  | frame (ctxSampleRate currentTime : ℚ) (input : List ℚ)
deriving Repr, DecidableEq

/-- One worklet event step: state transition plus emitted messages. -/
def stepW (st : WorkletState) : WEvent → WorkletState × List WorkletChunkMsg
  | .msg m => (handleMessage st m, [])
  | .frame sr ct input =>
    let r := process st sr ct input
    (r.1, r.2.2)

/-- Run the worklet over a sequence of events, collecting all emitted
`audio_chunk` messages in order. -/
def runW : WorkletState → List WEvent → WorkletState × List WorkletChunkMsg
  | st, [] => (st, [])
  | st, e :: es =>
    let p := stepW st e
    let q := runW p.1 es
    (q.1, p.2 ++ q.2)

/-- Whether an event is a `start` port message. -/
def isStartEvent : WEvent → Bool
  | .msg .start => true
  | _ => false

/-- Whether an event trace contains a `start` port message. -/
def containsStart (evs : List WEvent) : Bool :=
  evs.any isStartEvent

/-! ## Content script (`RTDContentScript`, shipped inside the README) -/

/-- A JSON value appearing in the messages the content script sends over
its WebSocket (only the shapes actually used). -/
inductive JsonVal where
  | str : String → JsonVal
  | num : ℚ → JsonVal
  | arr : List ℚ → JsonVal
  | bool : Bool → JsonVal
deriving Repr, DecidableEq

/-- WebSocket ready states, as compared against `WebSocket.OPEN`. -/
inductive WSReadyState where
  | connecting
  | wsOpen
  | closing
  | closed
deriving Repr, DecidableEq

/-- The fields of `RTDContentScript` relevant to sending audio:
`isActive` and the WebSocket (`null` or a socket with a ready state).
The video element, overlay, stats and media-stream fields do not affect
whether or what `handleAudioData` sends and are omitted. -/
structure CSState where
  isActive : Bool
  websocket : Option WSReadyState
deriving Repr, DecidableEq

/-- The JSON object sent by `handleAudioData`: literally
`{type: "audio_chunk", data: Array.from(audioData.audioBuffer),
sampleRate: audioData.sampleRate, timestamp: Date.now()}`, modelled
as an ordered key-value list. -/
def serverAudioChunkMsg (audioData : WorkletChunkMsg) (nowMs : ℚ) :
    List (String × JsonVal) :=
  [("type", .str "audio_chunk"),
   ("data", .arr audioData.audioBuffer),
   ("sampleRate", .num audioData.sampleRate),
   ("timestamp", .num nowMs)]

/-- `handleAudioData(audioData)`: returns without sending when
`!this.isActive || !this.websocket || this.websocket.readyState !==
WebSocket.OPEN`; otherwise sends the `audio_chunk` JSON message. -/
def handleAudioData (cs : CSState) (audioData : WorkletChunkMsg)
    (nowMs : ℚ) : Option (List (String × JsonVal)) :=
  if cs.isActive = false ∨ cs.websocket ≠ some WSReadyState.wsOpen then
    none
  else
    some (serverAudioChunkMsg audioData nowMs)

/-- `stopDubbing()`: sets `isActive = false`, closes and nulls the
WebSocket (it also stops the media stream and closes the audio context,
which have no bearing on message sending). -/
def stopDubbing (cs : CSState) : CSState :=
  { cs with isActive := false, websocket := none }

/-- The state change of a successful `startDubbing(settings)`: the
WebSocket is connected (open) and `isActive = true`. -/
def startDubbing (cs : CSState) : CSState :=
  { cs with isActive := true, websocket := some WSReadyState.wsOpen }

/-! ## Voice management UI (static/js/voice_management.js) -/

/-- Strips leading whitespace characters from a character list; used to
model `String.prototype.trim`. -/
def dropLeadingWs : List Char → List Char
  | [] => []
  | c :: cs => if c.isWhitespace then dropLeadingWs cs else c :: cs

/-- Model of JS `String.prototype.trim()`: strips leading and trailing
whitespace from the string. -/
def jsTrim (s : String) : String :=
  String.mk (List.reverse (dropLeadingWs (List.reverse (dropLeadingWs s.data))))

/-- An audio sample file chosen in the file input (opaque contents). -/
structure VoiceFile where
  filename : String
deriving Repr, DecidableEq

/-- The form inputs read by `submitCreateVoiceForm`: the voice name, the
description, the selected speaker and actor option values, and the
chosen sample files. -/
structure VoiceFormInputs where
  name : String
  description : String
  speakerValue : String
  actorValue : String
  files : List VoiceFile
deriving Repr, DecidableEq

/-- A value appended to the `FormData` of the create-voice request. -/
inductive FormValue where
  | str : String → FormValue
  | file : VoiceFile → FormValue
deriving Repr, DecidableEq

/-- `submitCreateVoiceForm()`: returns (alerts) without sending when the
trimmed name is empty, when no speaker is selected (`value === ''`), or
when no sample file is chosen (`files.length === 0`); otherwise POSTs a
`FormData` with `name` (trimmed), `speaker_id`, optionally `description`
(if its trimmed value is truthy) and `actor_id` (if truthy), and one
`audio_files` entry per chosen file. -/
def submitCreateVoiceForm (inp : VoiceFormInputs) :
    Option (List (String × FormValue)) :=
  if jsTrim inp.name = "" then
    none
  else if inp.speakerValue = "" then
    none
  else if inp.files.length = 0 then
    none
  else
    some ([("name", FormValue.str (jsTrim inp.name)),
           ("speaker_id", FormValue.str inp.speakerValue)]
      ++ (if jsTrim inp.description ≠ "" then
            [("description", FormValue.str (jsTrim inp.description))]
          else [])
      ++ (if inp.actorValue ≠ "" then
            [("actor_id", FormValue.str inp.actorValue)]
          else [])
      ++ inp.files.map (fun f => ("audio_files", FormValue.file f)))

/-! ## Spec-modelled backend components

The backend Python sources named in the README's project layout
(`services/speaker_identification.py`, `utils/audio_processing.py`) are
not part of the repository snapshot; the definitions below are built
from the specification's own wording, as their doc comments state. -/

/-- Dot product of two embedding vectors. -/
def dotProduct (u v : List ℚ) : ℚ :=
  (List.zipWith (· * ·) u v).sum

/-- Squared Euclidean norm of an embedding vector.  For unit vectors
(`norm2 u = 1` and `norm2 v = 1`) the cosine similarity of `u` and `v`
is exactly `dotProduct u v`. -/
def norm2 (u : List ℚ) : ℚ :=
  dotProduct u u

/-- The accumulation loop of `detectVoice` (audio-processor.js): starting
at bin index `i`, add each bin's magnitude to the low band (`freq < 300`),
the mid band (`freq < 3000`) or the high band, where
`freq = i * binSize`.  Returns `(low, mid, high)`. -/
def bandEnergies (binSize : ℚ) : Nat → List ℚ → ℚ × ℚ × ℚ
  | _, [] => (0, 0, 0)
  | i, x :: xs =>
    let r := bandEnergies binSize (i + 1) xs
    let freq := (i : ℚ) * binSize
    if freq < 300 then (x + r.1, r.2.1, r.2.2)
    else if freq < 3000 then (r.1, x + r.2.1, r.2.2)
    else (r.1, r.2.1, x + r.2.2)

/-- The `totalEnergy` local of `detectVoice`
(`lowFreqEnergy + midFreqEnergy + highFreqEnergy`), with
`binSize = this.sampleRate / (fftData.length * 2)`. -/
def bandTotal (sampleRt : ℚ) (fftData : List ℚ) : ℚ :=
  let e := bandEnergies (sampleRt / (fftData.length * 2)) 0 fftData
  e.1 + e.2.1 + e.2.2

/-- The `midFreqEnergy` accumulator of `detectVoice`. -/
def bandMid (sampleRt : ℚ) (fftData : List ℚ) : ℚ :=
  (bandEnergies (sampleRt / (fftData.length * 2)) 0 fftData).2.1

/-- `detectVoice(fftData)`: sums the band energies over the bins,
returns `false` when the total energy is 0 (`if (totalEnergy === 0)
return false`), and otherwise reports voice exactly when
`midFreqRatio > 0.3 && totalEnergy > 0.01` where
`midFreqRatio = midFreqEnergy / totalEnergy`.  The worklet's
`this.sampleRate` is the first argument. -/
def detectVoice (sampleRt : ℚ) (fftData : List ℚ) : Bool :=
  if bandTotal sampleRt fftData = 0 then
    false
  else
    decide (bandMid sampleRt fftData / bandTotal sampleRt fftData > 3/10
      ∧ bandTotal sampleRt fftData > 1/100)

/-- Modelled from the spec: a `SpeakerProfile` as kept by the Speaker
Identifier (`services/speaker_identification.py`, not in the snapshot):
a stable speaker id and the stored embedding vector.  Confidence and
timestamps play no role in the identification algorithm's id decisions
and are omitted. -/
structure SpeakerProfile where
  id : Nat
  embedding : List ℚ
deriving Repr, DecidableEq

/-- Modelled from the spec: the Speaker Identifier's profile store and
the counter minting fresh speaker ids. -/
structure IdentState where
  profiles : List SpeakerProfile
  nextId : Nat
deriving Repr, DecidableEq

/-- The identifier's state before any utterance is seen. -/
def emptyIdent : IdentState :=
  { profiles := [], nextId := 0 }

/-- Modelled from the spec: "compute a cosine-similarity (or equivalent
distance) between the new embedding and each known profile's stored
embedding" and take the best match.  The similarity metric is the
pluggable parameter `sim` (the spec treats the embedding/similarity
capability as externally supplied); the first profile attaining the
best score wins. -/
def bestMatch (sim : List ℚ → List ℚ → ℚ) (e : List ℚ) :
    List SpeakerProfile → Option (SpeakerProfile × ℚ)
  | [] => none
  | p :: ps =>
    let s := sim e p.embedding
    match bestMatch sim e ps with
    | none => some (p, s)
    | some (q, t) => if t > s then some (q, t) else some (p, s)

/-- Modelled from the spec: exponential smoothing of a stored embedding
towards a new one with smoothing factor `α` ("updates are smoothed
(e.g., weighted average)"). -/
def smoothEmbedding (α : ℚ) (old new : List ℚ) : List ℚ :=
  List.zipWith (fun o n => (1 - α) * o + α * n) old new

/-- Modelled from the spec: the Speaker Identifier's resolution step
(`services/speaker_identification.py` is not in the snapshot).  "If the
best match's similarity exceeds a configured threshold (default 0.8),
return the matched speaker id and update that profile's embedding via
exponential smoothing; otherwise create a new SpeakerProfile and return
its freshly minted id." -/
def identifySpeaker (sim : List ℚ → List ℚ → ℚ) (threshold α : ℚ)
    (e : List ℚ) (st : IdentState) : Nat × IdentState :=
  match bestMatch sim e st.profiles with
  | some (p, s) =>
    if s > threshold then
      (p.id,
       { st with
           profiles := st.profiles.map (fun q =>
             if q.id = p.id then
               { q with embedding := smoothEmbedding α q.embedding e }
             else q) })
    else
      (st.nextId,
       { profiles := st.profiles ++ [{ id := st.nextId, embedding := e }]
         nextId := st.nextId + 1 })
  | none =>
    (st.nextId,
     { profiles := st.profiles ++ [{ id := st.nextId, embedding := e }]
       nextId := st.nextId + 1 })

/-- Modelled from the spec: an `AudioChunk` as received by the backend
Chunk Ingest (`utils/audio_processing.py`, not in the snapshot): PCM
sample buffer, sample rate, capture timestamp, sequence number. -/
structure IngestChunk where
  samples : List ℚ
  sampleRate : ℚ
  timestamp : ℚ
  seq : Nat
deriving Repr, DecidableEq

/-- Modelled from the spec: the per-session configuration and state the
Chunk Ingest validates against: the session's configured sample rate,
the last accepted sequence number, and the chunk-count statistic. -/
structure IngestSession where
  sampleRate : ℚ
  lastSeq : Option Nat
  chunkCount : Nat
deriving Repr, DecidableEq

/-- The ingest error taxonomy entry for malformed input. -/
inductive IngestError where
  | invalidChunk
deriving Repr, DecidableEq

/-- A chunk that passed ingest validation, tagged `silent` when its mean
absolute amplitude falls below the configured noise-gate threshold. -/
structure GatedChunk where
  chunk : IngestChunk
  level : ℚ
  silent : Bool
deriving Repr, DecidableEq

/-- Modelled from the spec: the Chunk Ingest contract of §4.1
(`utils/audio_processing.py` is not in the snapshot).  "Rejects (reports
`InvalidChunkError`) chunks with sample rate mismatched to session
configuration, zero-length buffers, or sequence numbers out of monotonic
order"; then "chunks whose mean absolute amplitude falls below a
configurable threshold are tagged `silent`", and the session chunk-count
statistic is updated.  Validation precedes the noise-gate level
computation, so a rejected chunk never has its level computed. -/
def ingestChunk (gateThreshold : ℚ) (sess : IngestSession)
    (c : IngestChunk) : Except IngestError (IngestSession × GatedChunk) :=
  if c.sampleRate ≠ sess.sampleRate then
    .error .invalidChunk
  else if c.samples.length = 0 then
    .error .invalidChunk
  else if ∃ l, sess.lastSeq = some l ∧ c.seq ≤ l then
    .error .invalidChunk
  else
    let level := calculateAudioLevel c.samples
    .ok ({ sess with lastSeq := some c.seq, chunkCount := sess.chunkCount + 1 },
         { chunk := c, level := level, silent := level < gateThreshold })

/-- The worklet's buffering invariant: the buffer has at least one slot
and the write index is strictly inside it. -/
def WInv (st : WorkletState) : Prop :=
  0 < st.bufferSize ∧ st.bufferIndex < st.bufferSize

/-! ## Helper lemmas -/

theorem processSamples_output (ct : ℚ) (input : List ℚ) :
    ∀ st : WorkletState, (processSamples ct st input).2.1 = input := by
  induction input with
  | nil => intro st; rfl
  | cons x xs ih =>
    intro st
    simp only [processSamples, ih]

theorem processSamples_of_not_processing (ct : ℚ) (input : List ℚ) :
    ∀ st : WorkletState, st.isProcessing = false →
      processSamples ct st input = (st, input, []) := by
  induction input with
  | nil => intro st _; rfl
  | cons x xs ih =>
    intro st h
    have hp : processSample st ct x = (st, none) := by
      simp [processSample, h]
    simp only [processSamples, hp, ih st h]

theorem runW_stopped (evs : List WEvent) :
    ∀ st : WorkletState, st.isProcessing = false → containsStart evs = false →
      (runW st evs).2 = [] ∧ (runW st evs).1.isProcessing = false := by
  induction evs with
  | nil => intro st h _; exact ⟨rfl, h⟩
  | cons e es ih =>
    intro st h hcs
    have hcs' : isStartEvent e = false ∧ containsStart es = false := by
      simpa [containsStart, List.any_cons] using hcs
    have hstep : (stepW st e).1.isProcessing = false ∧ (stepW st e).2 = [] := by
      cases e with
      | msg m =>
        cases m with
        | start => simp [isStartEvent] at hcs'
        | stop => exact ⟨rfl, rfl⟩
        | setBufferSize n => exact ⟨h, rfl⟩
      | frame sr ct input =>
        by_cases hlen : input.length = 0
        · simp [stepW, process, hlen, h]
        · have h1 := processSamples_of_not_processing ct input
            { st with sampleRate := sr, isProcessing := false } rfl
          simp [stepW, process, hlen, h, h1]
    have := ih (stepW st e).1 hstep.1 hcs'.2
    refine ⟨?_, ?_⟩
    · simp only [runW, hstep.2, this.1, List.nil_append]
    · simpa [runW] using this.2

theorem processSamples_count (ct : ℚ) (input : List ℚ) :
    ∀ st : WorkletState, st.isProcessing = true →
      st.bufferIndex < st.bufferSize →
      (processSamples ct st input).2.2.length
          = (st.bufferIndex + input.length) / st.bufferSize
        ∧ (processSamples ct st input).1.bufferIndex
          = (st.bufferIndex + input.length) % st.bufferSize
        ∧ (processSamples ct st input).1.bufferSize = st.bufferSize := by
  induction input with
  | nil =>
    intro st h hb
    refine ⟨?_, ?_, rfl⟩
    · simp [processSamples, Nat.div_eq_of_lt hb]
    · simp [processSamples, Nat.mod_eq_of_lt hb]
  | cons x xs ih =>
    intro st h hb
    by_cases hfull : st.bufferIndex + 1 ≥ st.bufferSize
    · have heq : st.bufferIndex + 1 = st.bufferSize := by omega
      have hp : processSample st ct x
          = ({ st with buffer := st.buffer.set st.bufferIndex x, bufferIndex := 0 },
             some (processBuffer { st with buffer := st.buffer.set st.bufferIndex x, bufferIndex := st.bufferIndex + 1 } ct)) := by
        simp [processSample, h, hfull]
      have hih := ih { st with buffer := st.buffer.set st.bufferIndex x, bufferIndex := 0 } h (by simpa using by omega)
      have harg : st.bufferIndex + (xs.length + 1)
          = st.bufferSize + xs.length := by omega
      have hpos : 0 < st.bufferSize := by omega
      refine ⟨?_, ?_, ?_⟩
      · simp only [processSamples, hp, List.length_cons]
        simp only [List.length_cons, harg, Nat.add_div_left _ hpos]
        simpa using hih.1
      · simp only [processSamples, hp]
        simp only [List.length_cons, harg, Nat.add_mod_left]
        simpa using hih.2.1
      · simp only [processSamples, hp]
        simpa using hih.2.2
    · have hlt : st.bufferIndex + 1 < st.bufferSize := by omega
      have hp : processSample st ct x
          = ({ st with buffer := st.buffer.set st.bufferIndex x, bufferIndex := st.bufferIndex + 1 }, none) := by
        simp [processSample, h]
        omega
      have hih := ih { st with buffer := st.buffer.set st.bufferIndex x, bufferIndex := st.bufferIndex + 1 } h (by simpa using hlt)
      have harg : st.bufferIndex + 1 + xs.length
          = st.bufferIndex + (xs.length + 1) := by omega
      refine ⟨?_, ?_, ?_⟩
      · simp only [processSamples, hp, List.length_cons]
        have := hih.1
        simp only [harg] at this
        simpa using this
      · simp only [processSamples, hp, List.length_cons]
        have := hih.2.1
        simp only [harg] at this
        simpa using this
      · simp only [processSamples, hp]
        simpa using hih.2.2

theorem winv_processSample (st : WorkletState) (ct x : ℚ) (h : WInv st) :
    WInv (processSample st ct x).1 := by
  obtain ⟨h1, h2⟩ := h
  by_cases hp : st.isProcessing = true
  · by_cases hfull : st.bufferIndex + 1 ≥ st.bufferSize
    · simp only [processSample, hp, if_true]
      simp [hfull, WInv]
      omega
    · simp only [processSample, hp, if_true]
      simp [hfull, WInv]
      omega
  · have hpf : st.isProcessing = false := by
      cases his : st.isProcessing
      · rfl
      · exact absurd his hp
    simp [processSample, hpf, WInv]
    omega

theorem winv_processSamples (ct : ℚ) (input : List ℚ) :
    ∀ st : WorkletState, WInv st → WInv (processSamples ct st input).1 := by
  induction input with
  | nil => intro st h; exact h
  | cons x xs ih =>
    intro st h
    simpa [processSamples] using ih _ (winv_processSample st ct x h)

theorem winv_handleMessage (st : WorkletState) (m : WorkletMsg)
    (h : WInv st) : WInv (handleMessage st m) := by
  cases m with
  | start => exact ⟨h.1, h.2⟩
  | stop => exact ⟨h.1, h.2⟩
  | setBufferSize n =>
    have hle : (1024 : Int) ≤ max 1024 (min 8192 n) := le_max_left _ _
    constructor
    · simp only [handleMessage, updateBufferSize]
      omega
    · simp only [handleMessage, updateBufferSize]
      omega

theorem winv_stepW (st : WorkletState) (e : WEvent) (h : WInv st) :
    WInv (stepW st e).1 := by
  cases e with
  | msg m => exact winv_handleMessage st m h
  | frame sr ct input =>
    by_cases hlen : input.length = 0
    · simpa [stepW, process, hlen] using h
    · have h0 : WInv ({ st with sampleRate := sr } : WorkletState) :=
        ⟨h.1, h.2⟩
      have := winv_processSamples ct input { st with sampleRate := sr } h0
      simp only [stepW, process, hlen, if_false]
      exact ⟨this.1, this.2⟩

theorem compress_def (s t r : ℚ) :
    compress s t r
      = if |s| > t then
          (if s ≥ 0 then t + (|s| - t) * r else -(t + (|s| - t) * r))
        else s := rfl

theorem preprocessSample_def (s : ℚ) :
    preprocessSample s
      = compress (if |s| < 1/1000 then 0 else s) (7/10) (1/2) := rfl

theorem compress_id (s : ℚ) (h : |s| ≤ 7/10) :
    compress s (7/10) (1/2) = s := by
  rw [compress_def, if_neg (not_lt.mpr h)]

theorem compress_nonneg (s : ℚ) (h : 0 ≤ s) :
    0 ≤ compress s (7/10) (1/2) := by
  rw [compress_def]
  split_ifs with hgt
  · linarith
  · exact h

theorem compress_nonpos (s : ℚ) (h : s ≤ 0) :
    compress s (7/10) (1/2) ≤ 0 := by
  rw [compress_def]
  split_ifs with hgt hpos
  · have hs0 : s = 0 := le_antisymm h hpos
    rw [hs0, abs_zero] at hgt
    linarith
  · linarith
  · exact h

theorem compress_abs_le (s : ℚ) : |compress s (7/10) (1/2)| ≤ |s| := by
  rw [compress_def]
  split_ifs with hgt hpos
  · rw [abs_of_nonneg (by linarith : (0:ℚ) ≤ 7/10 + (|s| - 7/10) * (1/2))]
    linarith
  · rw [abs_neg,
      abs_of_nonneg (by linarith : (0:ℚ) ≤ 7/10 + (|s| - 7/10) * (1/2))]
    linarith
  · exact le_refl _

theorem compress_facts (s : ℚ) :
    (|s| ≤ 7/10 → compress s (7/10) (1/2) = s)
    ∧ (0 ≤ s → 0 ≤ compress s (7/10) (1/2))
    ∧ (s ≤ 0 → compress s (7/10) (1/2) ≤ 0)
    ∧ |compress s (7/10) (1/2)| ≤ |s| :=
  ⟨compress_id s, compress_nonneg s, compress_nonpos s, compress_abs_le s⟩

theorem preprocessSample_no_amp (s : ℚ) :
    |preprocessSample s| ≤ |s| := by
  rw [preprocessSample_def]
  by_cases hq : |s| < 1/1000
  · rw [if_pos hq]
    have h0 : compress 0 (7/10) (1/2) = 0 := by
      rw [compress_def]
      norm_num
    rw [h0, abs_zero]
    exact abs_nonneg s
  · rw [if_neg hq]
    exact (compress_facts s).2.2.2

/-! ## Claim theorems -/

/-- C6: for every frame handled by `AudioProcessor.process`, the output
channel equals the input channel sample for sample (the playback path is
a pure pass-through), regardless of the `isProcessing` flag or any other
part of the worklet state. -/
theorem process_passthrough (st : WorkletState) (sr ct : ℚ)
    (input : List ℚ) : (process st sr ct input).2.1 = input := by
  by_cases h : input.length = 0
  · simp [process, h]
  · simp [process, h, processSamples_output]

/-- C10: `detectVoice` is total and guarded against division by zero:
when the summed band energy is 0 it returns `false` (before the
mid-frequency ratio is formed), and whenever it reports voice the
mid-frequency ratio exceeds 0.3 and the total energy exceeds 0.01. -/
theorem detect_voice_total_and_guarded (sr : ℚ) (fft : List ℚ) :
    (bandTotal sr fft = 0 → detectVoice sr fft = false)
    ∧ (detectVoice sr fft = true →
        bandMid sr fft / bandTotal sr fft > 3/10
          ∧ bandTotal sr fft > 1/100) := by
  constructor
  · intro h
    simp [detectVoice, h]
  · intro h
    by_cases h0 : bandTotal sr fft = 0
    · simp [detectVoice, h0] at h
    · simpa [detectVoice, h0] using h

/-- C10 witness: a concrete silent spectrum yields `false`, and a
concrete mid-heavy spectrum at sample rate 6000 (bins 1 and 2 fall in
the 300–3000 Hz band) is detected with ratio 1 and total energy 2. -/
theorem detect_voice_total_and_guarded_witness :
    detectVoice 44100 [0, 0] = false
    ∧ (bandMid 6000 [0, 1, 1] / bandTotal 6000 [0, 1, 1] > 3/10
        ∧ bandTotal 6000 [0, 1, 1] > 1/100) :=
  ⟨(detect_voice_total_and_guarded 44100 [0, 0]).1
     (by norm_num [bandTotal, bandEnergies]),
   (detect_voice_total_and_guarded 6000 [0, 1, 1]).2
     (by norm_num [detectVoice, bandTotal, bandMid, bandEnergies])⟩

/-- C9: the compressor applied by preprocessing (threshold 0.7, ratio
0.5) is the identity on samples with `|s| ≤ 0.7`, preserves sign, and
never increases magnitude; consequently `preprocessAudio` never
amplifies any sample. -/
theorem compress_no_amplification :
    (∀ s : ℚ,
      (|s| ≤ 7/10 → compress s (7/10) (1/2) = s)
      ∧ (0 ≤ s → 0 ≤ compress s (7/10) (1/2))
      ∧ (s ≤ 0 → compress s (7/10) (1/2) ≤ 0)
      ∧ |compress s (7/10) (1/2)| ≤ |s|)
    ∧ (∀ (buf : List ℚ) (i : Nat) (h1 : i < buf.length)
        (h2 : i < (preprocessAudio buf).length),
        |(preprocessAudio buf).get ⟨i, h2⟩| ≤ |buf.get ⟨i, h1⟩|) := by
  refine ⟨compress_facts, fun buf i h1 h2 => ?_⟩
  have hmap : (preprocessAudio buf).get ⟨i, h2⟩
      = preprocessSample (buf.get ⟨i, h1⟩) := by
    simp [preprocessAudio]
  rw [hmap]
  exact preprocessSample_no_amp _

/-- C9 witness: instances of the compressor facts at concrete samples
(identity at 0.5, nonnegativity at 1, nonpositivity at -1) and of the
no-amplification bound at index 0 of the buffer containing 2. -/
theorem compress_no_amplification_witness :
    compress (1/2) (7/10) (1/2) = 1/2
    ∧ 0 ≤ compress 1 (7/10) (1/2)
    ∧ compress (-1) (7/10) (1/2) ≤ 0
    ∧ |(preprocessAudio [2]).get ⟨0, by decide⟩|
        ≤ |([2] : List ℚ).get ⟨0, by decide⟩| :=
  ⟨(compress_no_amplification.1 (1/2)).1 (by norm_num [abs_le]),
   (compress_no_amplification.1 1).2.1 (by norm_num),
   (compress_no_amplification.1 (-1)).2.2.1 (by norm_num),
   compress_no_amplification.2 [2] 0 (by decide) (by decide)⟩

/-- C5: a chunk whose sample buffer has zero length is rejected by the
(spec-modelled) Chunk Ingest with `InvalidChunkError`; the rejection
happens before the noise-gate level computation, so no level is ever
attached to such a chunk. -/
theorem zero_length_chunk_rejected (th : ℚ) (sess : IngestSession)
    (c : IngestChunk) (h : c.samples.length = 0) :
    ingestChunk th sess c = .error .invalidChunk := by
  unfold ingestChunk
  split_ifs with h1
  · rfl
  · rfl

/-- C5 witness: the empty chunk at the session's own sample rate is
rejected. -/
theorem zero_length_chunk_rejected_witness :
    ingestChunk (1/1000)
        { sampleRate := 16000, lastSeq := none, chunkCount := 0 }
        { samples := [], sampleRate := 16000, timestamp := 0, seq := 1 }
      = .error .invalidChunk :=
  zero_length_chunk_rejected (1/1000) _ _ rfl

theorem preprocessSample_small (s : ℚ) (h : |s| < 1/1000) :
    preprocessSample s = 0 := by
  rw [preprocessSample_def, if_pos h, compress_def]
  norm_num

theorem preprocess_replicate_ne :
    preprocessAudio (List.replicate 2048 ((1:ℚ)/2000))
      ≠ List.replicate 2048 ((1:ℚ)/2000) := by
  have hps : preprocessSample ((1:ℚ)/2000) = 0 :=
    preprocessSample_small _ (by norm_num [abs_lt])
  intro hcontra
  simp only [preprocessAudio, List.map_replicate, hps] at hcontra
  have hmem : ((1:ℚ)/2000) ∈ List.replicate 2048 ((1:ℚ)/2000) :=
    List.mem_replicate.mpr ⟨by norm_num, rfl⟩
  rw [← hcontra] at hmem
  have h0 := List.eq_of_mem_replicate hmem
  norm_num at h0

/-- C3: once the worklet has handled a `stop` port message, no
`audio_chunk` message is emitted on any subsequent trace that contains
no `start` message; and once the content script has run `stopDubbing`,
`handleAudioData` sends nothing to the server. -/
theorem no_chunk_after_stop (st : WorkletState) (evs : List WEvent)
    (h : containsStart evs = false) :
    (runW (handleMessage st .stop) evs).2 = []
    ∧ ∀ (cs : CSState) (ad : WorkletChunkMsg) (t : ℚ),
        handleAudioData (stopDubbing cs) ad t = none := by
  constructor
  · exact (runW_stopped evs (handleMessage st .stop) rfl h).1
  · intro cs ad t
    simp [handleAudioData, stopDubbing]

/-- C3 witness: a concrete post-stop trace of two frames and another
stop message emits no chunk, and a stopped content script sends
nothing. -/
theorem no_chunk_after_stop_witness :
    containsStart [WEvent.frame 44100 0 [1, 1, 1], WEvent.msg .stop,
        WEvent.frame 44100 1 [1]] = false
    ∧ (runW (handleMessage initWorklet .stop)
        [WEvent.frame 44100 0 [1, 1, 1], WEvent.msg .stop,
         WEvent.frame 44100 1 [1]]).2 = []
    ∧ handleAudioData
        (stopDubbing { isActive := true, websocket := some .wsOpen })
        { audioBuffer := [], sampleRate := 44100, level := 0, timestamp := 0 }
        0 = none :=
  ⟨rfl,
   (no_chunk_after_stop initWorklet
     [WEvent.frame 44100 0 [1, 1, 1], WEvent.msg .stop,
      WEvent.frame 44100 1 [1]] rfl).1,
   (no_chunk_after_stop initWorklet [] rfl).2
     { isActive := true, websocket := some .wsOpen }
     { audioBuffer := [], sampleRate := 44100, level := 0, timestamp := 0 } 0⟩

/-- C8: handling a `set_buffer_size` message clamps the requested size
to `max 1024 (min 8192 n)`, reallocates the buffer to exactly that many
zeroed slots, and resets `bufferIndex` to 0; the invariant
`bufferIndex < bufferSize` (with a positive buffer size) holds initially
and is preserved by every per-sample write step and every worklet
event. -/
theorem buffer_size_clamp_and_invariant :
    (∀ (st : WorkletState) (n : Int),
      (handleMessage st (.setBufferSize n)).bufferSize
          = (max 1024 (min 8192 n)).toNat
        ∧ (handleMessage st (.setBufferSize n)).buffer
          = List.replicate (max 1024 (min 8192 n)).toNat 0
        ∧ (handleMessage st (.setBufferSize n)).bufferIndex = 0)
    ∧ WInv initWorklet
    ∧ (∀ (st : WorkletState) (ct x : ℚ),
        WInv st → WInv (processSample st ct x).1)
    ∧ (∀ (st : WorkletState) (e : WEvent),
        WInv st → WInv (stepW st e).1) := by
  refine ⟨fun st n => ⟨rfl, rfl, rfl⟩, ?_, winv_processSample, winv_stepW⟩
  constructor <;> norm_num [initWorklet]

/-- C8 witness: the clamp at requested size 5000, and the invariant
after one sample write and one `stop` event from the initial state. -/
theorem buffer_size_clamp_and_invariant_witness :
    (handleMessage initWorklet (.setBufferSize 5000)).bufferSize
        = (max 1024 (min 8192 (5000 : Int))).toNat
    ∧ WInv (processSample initWorklet 0 1).1
    ∧ WInv (stepW initWorklet (.msg .stop)).1 :=
  ⟨(buffer_size_clamp_and_invariant.1 initWorklet 5000).1,
   buffer_size_clamp_and_invariant.2.2.1 initWorklet 0 1
     ⟨by norm_num [initWorklet], by norm_num [initWorklet]⟩,
   buffer_size_clamp_and_invariant.2.2.2 initWorklet (.msg .stop)
     ⟨by norm_num [initWorklet], by norm_num [initWorklet]⟩⟩

/-- C7: `submitCreateVoiceForm` issues a create-voice-clone request if
and only if the trimmed voice name is non-empty, a speaker is selected,
and at least one sample file is chosen; every issued request carries the
trimmed name, the selected `speaker_id`, and one `audio_files` entry for
every chosen file. -/
theorem create_voice_clone_request_iff_valid (inp : VoiceFormInputs) :
    ((submitCreateVoiceForm inp).isSome
      ↔ (jsTrim inp.name ≠ "" ∧ inp.speakerValue ≠ "" ∧ inp.files ≠ []))
    ∧ ∀ fd, submitCreateVoiceForm inp = some fd →
        ("name", FormValue.str (jsTrim inp.name)) ∈ fd
        ∧ ("speaker_id", FormValue.str inp.speakerValue) ∈ fd
        ∧ ∀ f ∈ inp.files, ("audio_files", FormValue.file f) ∈ fd := by
  constructor
  · by_cases n1 : jsTrim inp.name = ""
    · simp [submitCreateVoiceForm, n1]
    · by_cases n2 : inp.speakerValue = ""
      · simp [submitCreateVoiceForm, n1, n2]
      · by_cases n3 : inp.files.length = 0
        · have h0 : inp.files = [] := List.length_eq_zero.mp n3
          simp [submitCreateVoiceForm, n1, n2, n3, h0]
        · have h3 : inp.files ≠ [] := fun he => n3 (by simp [he])
          simp [submitCreateVoiceForm, n1, n2, n3, h3]
  · intro fd hfd
    by_cases n1 : jsTrim inp.name = ""
    · simp [submitCreateVoiceForm, n1] at hfd
    · by_cases n2 : inp.speakerValue = ""
      · simp [submitCreateVoiceForm, n1, n2] at hfd
      · by_cases n3 : inp.files.length = 0
        · simp [submitCreateVoiceForm, n1, n2, n3] at hfd
        · rw [submitCreateVoiceForm, if_neg n1, if_neg n2, if_neg n3] at hfd
          have hL := Option.some.inj hfd
          subst hL
          refine ⟨?_, ?_, ?_⟩
          · simp
          · simp
          · intro f hf
            simp only [List.mem_append]
            exact Or.inr (List.mem_map_of_mem _ hf)

/-- C7 witness: a form with name " v " (trimming to "v"), speaker
"spk1", no description or actor, and one file "a.wav" produces exactly
the request carrying those values. -/
theorem create_voice_clone_request_iff_valid_witness :
    ("name", FormValue.str "v")
        ∈ [("name", FormValue.str "v"), ("speaker_id", FormValue.str "spk1"),
           ("audio_files", FormValue.file { filename := "a.wav" })]
    ∧ ("speaker_id", FormValue.str "spk1")
        ∈ [("name", FormValue.str "v"), ("speaker_id", FormValue.str "spk1"),
           ("audio_files", FormValue.file { filename := "a.wav" })]
    ∧ ("audio_files", FormValue.file { filename := "a.wav" })
        ∈ [("name", FormValue.str "v"), ("speaker_id", FormValue.str "spk1"),
           ("audio_files", FormValue.file { filename := "a.wav" })] := by
  have h := (create_voice_clone_request_iff_valid
      { name := " v ", description := "", speakerValue := "spk1",
        actorValue := "", files := [{ filename := "a.wav" }] }).2
    [("name", FormValue.str "v"), ("speaker_id", FormValue.str "spk1"),
     ("audio_files", FormValue.file { filename := "a.wav" })] rfl
  exact ⟨h.1, h.2.1, h.2.2 { filename := "a.wav" } (by simp)⟩

/-- C2 (amended): the worklet computes every chunk's mean absolute
amplitude and attaches it to the forwarded message as `level`; the
forwarded audio is always the preprocessed buffer (never the original),
and the per-sample noise gate zeroes exactly the samples with absolute
amplitude below 0.001. -/
theorem chunk_level_and_gate (st : WorkletState) (ct : ℚ) :
    (processBuffer st ct).level = calculateAudioLevel st.buffer
    ∧ (processBuffer st ct).audioBuffer = preprocessAudio st.buffer
    ∧ ∀ s : ℚ, |s| < 1/1000 → preprocessSample s = 0 :=
  ⟨rfl, rfl, preprocessSample_small⟩

/-- C2 witness: the level field of the initial buffer's message, and
the gate zeroing the sub-threshold sample 1/2000. -/
theorem chunk_level_and_gate_witness :
    (processBuffer initWorklet 0).level = calculateAudioLevel initWorklet.buffer
    ∧ preprocessSample (1/2000) = 0 :=
  ⟨(chunk_level_and_gate initWorklet 0).1,
   (chunk_level_and_gate initWorklet 0).2.2 (1/2000) (by norm_num [abs_lt])⟩

/-- C2 counterexample: a chunk of 2048 samples of amplitude 1/2000 has
mean absolute amplitude 1/2000, below the 0.001 noise-gate threshold
(so it is "silent" for any threshold at or above the code's gate
constant), yet the forwarded audio is not the original buffer: every
sample is zeroed by the per-sample gate.  There is no silent tag or
short-circuit in `processBuffer` at all. -/
theorem silent_chunk_not_passthrough :
    calculateAudioLevel (List.replicate 2048 ((1:ℚ)/2000)) < 1/1000
    ∧ (processBuffer
        { initWorklet with buffer := List.replicate 2048 ((1:ℚ)/2000) }
        0).audioBuffer
      ≠ List.replicate 2048 ((1:ℚ)/2000) := by
  constructor
  · have hlvl : calculateAudioLevel (List.replicate 2048 ((1:ℚ)/2000))
        = 1/2000 := by
      unfold calculateAudioLevel
      rw [List.map_replicate,
        show |(1:ℚ)/2000| = 1/2000 from abs_of_nonneg (by norm_num),
        List.sum_replicate, List.length_replicate, nsmul_eq_mul]
      norm_num
    rw [hlvl]
    norm_num
  · exact preprocess_replicate_ne

/-- C4 (amended): the `audio_chunk` message sent to the server carries
exactly the keys `type`, `data`, `sampleRate`, `timestamp`, with `data`
holding the (preprocessed) buffered samples, `sampleRate` the worklet's
sample rate and `timestamp` the send time; and while processing is
enabled the worklet emits exactly one chunk message each time
`bufferSize` samples have accumulated
(`(bufferIndex + samples) / bufferSize` messages over any run). -/
theorem audio_chunk_fields_and_count :
    (∀ (ad : WorkletChunkMsg) (now : ℚ),
      (serverAudioChunkMsg ad now).map Prod.fst
          = ["type", "data", "sampleRate", "timestamp"]
        ∧ ("data", JsonVal.arr ad.audioBuffer) ∈ serverAudioChunkMsg ad now
        ∧ ("sampleRate", JsonVal.num ad.sampleRate) ∈ serverAudioChunkMsg ad now
        ∧ ("timestamp", JsonVal.num now) ∈ serverAudioChunkMsg ad now)
    ∧ (∀ (ct : ℚ) (input : List ℚ) (st : WorkletState),
        st.isProcessing = true → st.bufferIndex < st.bufferSize →
        (processSamples ct st input).2.2.length
          = (st.bufferIndex + input.length) / st.bufferSize) := by
  refine ⟨fun ad now => ⟨rfl, ?_, ?_, ?_⟩,
    fun ct input st h hb => (processSamples_count ct input st h hb).1⟩
  · simp [serverAudioChunkMsg]
  · simp [serverAudioChunkMsg]
  · simp [serverAudioChunkMsg]

/-- C4 witness: the `sampleRate` field of a concrete message, and the
count of messages over a 3-sample run with buffer size 2 starting
empty: exactly `(0 + 3) / 2 = 1` message. -/
theorem audio_chunk_fields_and_count_witness :
    ("sampleRate", JsonVal.num 44100)
        ∈ serverAudioChunkMsg
          { audioBuffer := [], sampleRate := 44100, level := 0, timestamp := 0 } 7
    ∧ (processSamples 0
        { bufferSize := 2, buffer := [0, 0], bufferIndex := 0,
          sampleRate := 44100, isProcessing := true, frameCount := 0 }
        [1, 2, 3]).2.2.length = (0 + 3) / 2 :=
  ⟨(audio_chunk_fields_and_count.1
      { audioBuffer := [], sampleRate := 44100, level := 0, timestamp := 0 }
      7).2.2.1,
   audio_chunk_fields_and_count.2 0 [1, 2, 3]
     { bufferSize := 2, buffer := [0, 0], bufferIndex := 0,
       sampleRate := 44100, isProcessing := true, frameCount := 0 }
     rfl (by norm_num)⟩

/-- C4 counterexample: the wire message has no `sample_rate` key (the
code writes `sampleRate`), and its `data` is not the buffered samples:
for a buffer of 2048 samples of amplitude 1/2000 the forwarded data is
all zeros. -/
theorem audio_chunk_field_name_counterexample :
    ((serverAudioChunkMsg
        (processBuffer
          { initWorklet with buffer := List.replicate 2048 ((1:ℚ)/2000) } 0)
        5).map Prod.fst).contains "sample_rate" = false
    ∧ (processBuffer
        { initWorklet with buffer := List.replicate 2048 ((1:ℚ)/2000) }
        0).audioBuffer
      ≠ List.replicate 2048 ((1:ℚ)/2000) :=
  ⟨rfl, preprocess_replicate_ne⟩

/-- C1 (amended): when the similarity of the new embedding to the
stored one strictly exceeds the 0.8 threshold, the Speaker Identifier
returns the already-known speaker id and creates no new profile: both
for the two-utterance scenario starting from an empty profile store,
and in general whenever the best match strictly exceeds the
threshold. -/
theorem speaker_same_id_above_threshold :
    (∀ (sim : List ℚ → List ℚ → ℚ) (α : ℚ) (e1 e2 : List ℚ),
      sim e2 e1 > 4/5 →
      ((identifySpeaker sim (4/5) α e2
          (identifySpeaker sim (4/5) α e1 emptyIdent).2).1
          = (identifySpeaker sim (4/5) α e1 emptyIdent).1
        ∧ (identifySpeaker sim (4/5) α e2
            (identifySpeaker sim (4/5) α e1 emptyIdent).2).2.profiles.length
          = (identifySpeaker sim (4/5) α e1 emptyIdent).2.profiles.length))
    ∧ (∀ (sim : List ℚ → List ℚ → ℚ) (th α : ℚ) (e : List ℚ)
        (st : IdentState) (p : SpeakerProfile) (s : ℚ),
        bestMatch sim e st.profiles = some (p, s) → s > th →
        ((identifySpeaker sim th α e st).1 = p.id
          ∧ (identifySpeaker sim th α e st).2.profiles.length
            = st.profiles.length)) := by
  constructor
  · intro sim α e1 e2 h
    have h1 : identifySpeaker sim (4/5) α e1 emptyIdent
        = (0, { profiles := [{ id := 0, embedding := e1 }], nextId := 1 }) :=
      rfl
    rw [h1]
    have hbm : bestMatch sim e2 [{ id := 0, embedding := e1 }]
        = some ({ id := 0, embedding := e1 }, sim e2 e1) := rfl
    simp [identifySpeaker, hbm, h]
  · intro sim th α e st p s hbm hs
    simp [identifySpeaker, hbm, hs]

/-- C1 witness: with the dot-product similarity on unit vectors (where
it coincides with cosine similarity), a repeat of the embedding [1, 0]
(similarity 1 > 0.8) resolves to the same speaker id 0 with a single
stored profile. -/
theorem speaker_same_id_above_threshold_witness :
    (identifySpeaker dotProduct (4/5) (3/10) [1, 0]
        (identifySpeaker dotProduct (4/5) (3/10) [1, 0] emptyIdent).2).1
      = (identifySpeaker dotProduct (4/5) (3/10) [1, 0] emptyIdent).1
    ∧ (identifySpeaker dotProduct (4/5) (3/10) [1, 0]
        (identifySpeaker dotProduct (4/5) (3/10) [1, 0] emptyIdent).2).2.profiles.length
      = (identifySpeaker dotProduct (4/5) (3/10) [1, 0] emptyIdent).2.profiles.length :=
  (speaker_same_id_above_threshold.1 dotProduct (3/10) [1, 0] [1, 0]
    (by norm_num [dotProduct]))

/-- C1 counterexample: the embeddings [1, 0] and [4/5, 3/5] are unit
vectors (squared norms 1), so their cosine similarity is exactly their
dot product 4/5 = 0.8, which satisfies "similarity ≥ 0.8"; yet the
identifier (which requires the similarity to strictly exceed the
threshold, per spec §4.2) assigns the second utterance a new speaker
id and creates a second SpeakerProfile. -/
theorem speaker_exact_threshold_counterexample :
    norm2 [(1:ℚ), 0] = 1
    ∧ norm2 [(4:ℚ)/5, 3/5] = 1
    ∧ dotProduct [(1:ℚ), 0] [4/5, 3/5] = 4/5
    ∧ (identifySpeaker dotProduct (4/5) (3/10) [4/5, 3/5]
        (identifySpeaker dotProduct (4/5) (3/10) [1, 0] emptyIdent).2).1
      ≠ (identifySpeaker dotProduct (4/5) (3/10) [1, 0] emptyIdent).1
    ∧ (identifySpeaker dotProduct (4/5) (3/10) [4/5, 3/5]
        (identifySpeaker dotProduct (4/5) (3/10) [1, 0] emptyIdent).2).2.profiles.length
      = 2 := by
  have h1 : identifySpeaker dotProduct (4/5) (3/10) [1, 0] emptyIdent
      = (0, { profiles := [{ id := 0, embedding := [1, 0] }], nextId := 1 }) :=
    rfl
  have hbm : bestMatch dotProduct [(4:ℚ)/5, 3/5]
        [{ id := 0, embedding := [1, 0] }]
      = some ({ id := 0, embedding := [1, 0] },
          dotProduct [(4:ℚ)/5, 3/5] [1, 0]) := rfl
  have hdot : dotProduct [(4:ℚ)/5, 3/5] [(1:ℚ), 0] = 4/5 := by
    norm_num [dotProduct]
  refine ⟨by norm_num [norm2, dotProduct], by norm_num [norm2, dotProduct],
    by norm_num [dotProduct], ?_, ?_⟩
  · rw [h1]
    simp [identifySpeaker, hbm, hdot]
  · rw [h1]
    simp [identifySpeaker, hbm, hdot]

end RTD
